import Mathlib

/-!
# Verification of the mustermann compile-and-execute pipeline

A shallow embedding of the repository's code generator
(`src/code_gen/mod.rs`, `src/code_gen/instruction.rs`) and bytecode
virtual machine (`src/vm.rs`), together with theorems settling the
frozen claims about them.

Modelling conventions:
* Rust `u64`/`usize` become `Nat`; where wrap-around matters it is made
  explicit with `% 2 ^ 64`.  The host is modelled as 64-bit, so
  `size_of::<usize>() = 8`.
* Rust `Vec` push/pop act on the *end* of the vector; we represent each
  such stack as a Lean list whose *head* is the Rust vector's last
  element, so `Vec::push` is cons and `Vec::pop` is tail.
* `HashMap::insert` (latest insertion wins) is modelled by consing onto
  an association list that is read with a first-match lookup.
* Channels (`print_tx`, `remote_call_tx`, `remote_call_rx`) are modelled
  as message lists carried in the VM state: sends append to an output
  list, `try_recv` pops the head of an input list.  Sends never fail in
  the model (the `PrintError` variant is therefore unreachable), and
  channel capacity/backpressure and wall-clock time (`Sleep`) are not
  modelled; neither affects the claims.
* OpenTelemetry handles carry no data relevant to control flow: the
  tracer is a `Bool` (configured or not) and the worker's current trace
  context a `Bool` (present or not); metrics counters are omitted.
* A Rust `panic!`/`unwrap` failure that is not a `VMError` (e.g. `Ret`
  with no return address) is the dedicated `StepResult.panicked`
  outcome.  Out-of-range slice reads inside instruction decoding, which
  would also panic and are unreachable for encoder-produced bytecode,
  are modelled as reads that default to byte 0.
* On a `VMError`, the error result carries the VM state with all field
  mutations the failing instruction performed before erroring, mirroring
  the mutations of `self` in `execute_instruction`.
-/

/-! ## Byte-level helpers -/

/-- Little-endian bytes of `n`, `k` bytes long (Rust `to_le_bytes`,
truncating like a fixed-width integer). -/
def natToLeBytes : Nat → Nat → List Nat
  | _, 0 => []
  | n, k + 1 => (n % 256) :: natToLeBytes (n / 256) k

/-- Read a little-endian byte list as a number (Rust `from_le_bytes`). -/
def leBytesToNat : List Nat → Nat
  | [] => 0
  | b :: rest => b + 256 * leBytesToNat rest

/-- The `l[a..b]` as in a Rust slice (empty when out of range). -/
def listSlice (l : List Nat) (a b : Nat) : List Nat :=
  (l.drop a).take (b - a)

/-- The `l[i]`, defaulting to 0 out of range (in-range in all executions of
encoder-produced bytecode). -/
def byteAt (l : List Nat) (i : Nat) : Nat :=
  l.getD i 0

/-- UTF-8 encoding of one scalar value. -/
def charUtf8 (c : Char) : List Nat :=
  let n := c.toNat
  if n < 0x80 then [n]
  else if n < 0x800 then [0xC0 + n / 64, 0x80 + n % 64]
  else if n < 0x10000 then [0xE0 + n / 4096, 0x80 + (n / 64) % 64, 0x80 + n % 64]
  else [0xF0 + n / 262144, 0x80 + (n / 4096) % 64, 0x80 + (n / 64) % 64, 0x80 + n % 64]

/-- The UTF-8 bytes of a string: Rust `str::as_bytes` / `String::len`
counts these bytes. -/
def strBytes (s : String) : List Nat :=
  (s.data.map charUtf8).flatten

/-- UTF-8 decoding (Rust `String::from_utf8(..).unwrap()`); all decoded
byte lists in this development are valid encodings, malformed tails are
dropped. -/
def utf8DecodeChars : List Nat → List Char
  | [] => []
  | b :: rest =>
    if b < 0x80 then Char.ofNat b :: utf8DecodeChars rest
    else if b < 0xE0 then
      match rest with
      | b2 :: rest2 => Char.ofNat ((b - 0xC0) * 64 + (b2 - 0x80)) :: utf8DecodeChars rest2
      | [] => []
    else if b < 0xF0 then
      match rest with
      | b2 :: b3 :: rest3 =>
        Char.ofNat ((b - 0xE0) * 4096 + (b2 - 0x80) * 64 + (b3 - 0x80)) :: utf8DecodeChars rest3
      | _ => []
    else
      match rest with
      | b2 :: b3 :: b4 :: rest4 =>
        Char.ofNat ((b - 0xF0) * 262144 + (b2 - 0x80) * 4096 + (b3 - 0x80) * 64 + (b4 - 0x80))
          :: utf8DecodeChars rest4
      | _ => []

def utf8Decode (bs : List Nat) : String :=
  String.mk (utf8DecodeChars bs)

/-! ## String search and replace

Rust `str::contains` / `str::replace` work on UTF-8 bytes; for the ASCII
patterns used by the VM (`"%s"`, `"%d"`) the byte-level and the
character-level operation coincide on valid UTF-8, so we model them on
`List Char`. `replaceAll` replaces every non-overlapping occurrence left
to right, exactly like `str::replace`. -/

def containsSub : List Char → List Char → Bool
  | [], pat => pat.isPrefixOf []
  | c :: rest, pat => pat.isPrefixOf (c :: rest) || containsSub rest pat

/-- The worker for `replaceAll`, structurally recursive on a fuel that
the wrapper sets to `s.length`; every step consumes at least one
character, so the fuel never runs out before `s` does. -/
def replaceAllFuel : Nat → List Char → List Char → List Char → List Char
  | 0, s, _, _ => s
  | fuel + 1, s, pat, rep =>
    match s with
    | [] => []
    | c :: rest =>
      if pat ≠ [] ∧ pat.isPrefixOf (c :: rest) then
        rep ++ replaceAllFuel fuel ((c :: rest).drop pat.length) pat rep
      else
        c :: replaceAllFuel fuel rest pat rep

def replaceAll (s pat rep : List Char) : List Char :=
  replaceAllFuel s.length s pat rep

def str_contains (s pat : String) : Bool :=
  containsSub s.data pat.data

def str_replace (s pat rep : String) : String :=
  String.mk (replaceAll s.data pat.data rep.data)

/-! ## Association-list maps (for `HashMap`) -/

def lookupStr : List (String × Nat) → String → Option Nat
  | [], _ => none
  | (k, v) :: rest, key => if k = key then some v else lookupStr rest key

def lookupNat : List (Nat × String) → Nat → Option String
  | [], _ => none
  | (k, v) :: rest, key => if k = key then some v else lookupNat rest key

def lookupVar {α : Type} : List (String × α) → String → Option α
  | [], _ => none
  | (k, v) :: rest, key => if k = key then some v else lookupVar rest key

/-! ## `src/code_gen/instruction.rs` -/

/-- The `StackValue`: tagged union of text and `u64`. -/
inductive StackValue
  | String (s : String)
  | Int (n : Nat)
  deriving DecidableEq, Repr

/-- The `Display for StackValue` (`{}` formatting, used by `to_string()`).
Declared outside the `StackValue` namespace so that `String` keeps
denoting the string type. -/
def stackValueDisplay : StackValue → String
  | .String s => s
  | .Int n => toString n

/-- The `Instruction`: the bytecode instruction set. -/
inductive Instruction
  | Push (v : StackValue)
  | Pop
  | Dec
  | JmpIfZero (l : String)
  | Label (l : String)
  | Stdout
  | Stderr
  | Sleep (ms : Nat)
  | StoreVar (k v : String)
  | LoadVar (k : String)
  | Dup
  | Jump (l : String)
  | Printf
  | RemoteCall
  | StartContext
  | EndContext
  | CheckInterrupt
  | Call (l : String)
  | Ret
  deriving DecidableEq, Repr

def PUSH_STRING_CODE : Nat := 0x01
def PUSH_INT_CODE : Nat := 0x02
def POP_CODE : Nat := 0x03
def DEC_CODE : Nat := 0x04
def JMP_IF_ZERO_CODE : Nat := 0x05
def LABEL_CODE : Nat := 0x06
def STDOUT_CODE : Nat := 0x07
def STDERR_CODE : Nat := 0x08
def SLEEP_CODE : Nat := 0x09
def STORE_VAR_CODE : Nat := 0x0a
def LOAD_VAR_CODE : Nat := 0x0b
def DUP_CODE : Nat := 0x0c
def JUMP_CODE : Nat := 0x0d
def PRINTF_CODE : Nat := 0x0e
def REMOTE_CALL_CODE : Nat := 0x0f
def START_CONTEXT_CODE : Nat := 0x10
def END_CONTEXT_CODE : Nat := 0x11
def CHECK_INTERRUPT_CODE : Nat := 0x12
def CALL_CODE : Nat := 0x13
def RET_CODE : Nat := 0x14

/-- The `Instruction::code`. -/
def Instruction.code : Instruction → Nat
  | .Push (.String _) => PUSH_STRING_CODE
  | .Push (.Int _) => PUSH_INT_CODE
  | .Pop => POP_CODE
  | .Dec => DEC_CODE
  | .JmpIfZero _ => JMP_IF_ZERO_CODE
  | .Label _ => LABEL_CODE
  | .Stdout => STDOUT_CODE
  | .Stderr => STDERR_CODE
  | .Sleep _ => SLEEP_CODE
  | .StoreVar _ _ => STORE_VAR_CODE
  | .LoadVar _ => LOAD_VAR_CODE
  | .Dup => DUP_CODE
  | .Jump _ => JUMP_CODE
  | .Printf => PRINTF_CODE
  | .RemoteCall => REMOTE_CALL_CODE
  | .StartContext => START_CONTEXT_CODE
  | .EndContext => END_CONTEXT_CODE
  | .CheckInterrupt => CHECK_INTERRUPT_CODE
  | .Call _ => CALL_CODE
  | .Ret => RET_CODE

/-- The `Instruction::to_bytes`: one opcode byte, then operands.  String and
label operands are a `usize` little-endian byte length followed by the
UTF-8 bytes; `u64` operands are a `usize` length (always 8) followed by
8 little-endian bytes. -/
def Instruction.to_bytes : Instruction → List Nat
  | i@(.Push (.String s)) =>
    i.code :: (natToLeBytes (strBytes s).length 8 ++ strBytes s)
  | i@(.Push (.Int n)) =>
    i.code :: (natToLeBytes 8 8 ++ natToLeBytes n 8)
  | .Pop => [POP_CODE]
  | .Dec => [DEC_CODE]
  | i@(.JmpIfZero label) =>
    i.code :: (natToLeBytes (strBytes label).length 8 ++ strBytes label)
  | i@(.Label label) =>
    i.code :: (natToLeBytes (strBytes label).length 8 ++ strBytes label)
  | .Stdout => [STDOUT_CODE]
  | .Stderr => [STDERR_CODE]
  | i@(.Sleep ms) =>
    i.code :: (natToLeBytes 8 8 ++ natToLeBytes ms 8)
  | i@(.StoreVar key value) =>
    i.code :: (natToLeBytes (strBytes key).length 8 ++ strBytes key
      ++ natToLeBytes (strBytes value).length 8 ++ strBytes value)
  | i@(.LoadVar key) =>
    i.code :: (natToLeBytes (strBytes key).length 8 ++ strBytes key)
  | .Dup => [DUP_CODE]
  | i@(.Jump label) =>
    i.code :: (natToLeBytes (strBytes label).length 8 ++ strBytes label)
  | .Printf => [PRINTF_CODE]
  | .RemoteCall => [REMOTE_CALL_CODE]
  | .StartContext => [START_CONTEXT_CODE]
  | .EndContext => [END_CONTEXT_CODE]
  | .CheckInterrupt => [CHECK_INTERRUPT_CODE]
  | i@(.Call label) =>
    i.code :: (natToLeBytes (strBytes label).length 8 ++ strBytes label)
  | .Ret => [RET_CODE]

/-! ## `src/parser/mod.rs` syntax tree -/

/-- The `Statement` from the parser.  `Sleep` stores a `Duration` in Rust;
the code generator only ever reads `duration.as_millis() as u64`, so the
model stores the millisecond count. -/
inductive Statement
  | Stdout (message : String) (args : Option (List String))
  | Stderr (message : String) (args : Option (List String))
  | Sleep (durationMs : Nat)
  | Call (service : Option String) (method : String)
  deriving DecidableEq, Repr

/-- The `{:?}` of a `Vec<String>` (Rust debug formatting). -/
def debugStringList (xs : List String) : String :=
  "[" ++ String.intercalate ", " (xs.map (fun x => "\"" ++ x ++ "\"")) ++ "]"

/-- The `Display for Statement`.  The `Sleep` arm debug-prints the
`Duration`; the model approximates it with the millisecond count
followed by `ms` (only ever embedded into codegen error messages). -/
def statementDisplay : Statement → String
  | .Stdout message args =>
    "Print(" ++ message ++ ")" ++
      (match args with
       | some a => "(" ++ debugStringList a ++ ")"
       | none => "")
  | .Sleep ms => "Sleep(" ++ toString ms ++ "ms)"
  | .Call service method => "Call(" ++ service.getD "" ++ "." ++ method ++ ")"
  | .Stderr message args =>
    "Stderr(" ++ message ++ ")" ++
      (match args with
       | some a => "(" ++ debugStringList a ++ ")"
       | none => "")

structure Method where
  name : String
  statements : List Statement
  deriving DecidableEq, Repr

structure Loop where
  statements : List Statement
  deriving DecidableEq, Repr

structure Service where
  name : String
  methods : List Method
  loops : List Loop
  deriving DecidableEq, Repr

/-! ## `src/code_gen/mod.rs` -/

inductive CodeGenError
  | InvalidStatement (msg : String)
  deriving DecidableEq, Repr

instance {e a : Type} [DecidableEq e] [DecidableEq a] : DecidableEq (Except e a) :=
  fun x y =>
    match x, y with
    | .error e1, .error e2 =>
      if h : e1 = e2 then .isTrue (by rw [h]) else .isFalse (by simp [h])
    | .ok v1, .ok v2 =>
      if h : v1 = v2 then .isTrue (by rw [h]) else .isFalse (by simp [h])
    | .error _, .ok _ => .isFalse (by simp)
    | .ok _, .error _ => .isFalse (by simp)

inductive PrintType
  | Stdout
  | Stderr
  deriving DecidableEq, Repr

/-- The `CodeGenerator::process_print`. -/
def process_print (message : String) (args : Option (List String))
    (print_type : PrintType) : List Instruction :=
  match args with
  | some args =>
    (args.map (fun arg =>
      [Instruction.Push (.String message), Instruction.Push (.String arg),
       Instruction.Printf,
       match print_type with
       | .Stdout => Instruction.Stdout
       | .Stderr => Instruction.Stderr])).flatten
  | none =>
    [Instruction.Push (.String message),
     match print_type with
     | .Stdout => Instruction.Stdout
     | .Stderr => Instruction.Stderr]

/-- The body of `CodeGenerator::process_method`'s statement loop: the
instructions one statement contributes, or the error that aborts
codegen. -/
def process_method_statement (st : Statement) : Except CodeGenError (List Instruction) :=
  match st with
  | .Stdout message args => .ok (process_print message args .Stdout)
  | .Sleep durationMs => .ok [Instruction.Sleep durationMs]
  | .Call service method =>
    match service with
    | some service =>
      .ok [Instruction.Push (.String service), Instruction.Push (.String method),
           Instruction.RemoteCall]
    | none =>
      .error (.InvalidStatement ("Expected Remote Call - Got " ++ statementDisplay st))
  | .Stderr message args => .ok (process_print message args .Stderr)

/-- The `CodeGenerator::process_method`'s statement loop (in-order extend
with early return on error). -/
def process_statements : List Statement → Except CodeGenError (List Instruction)
  | [] => .ok []
  | st :: rest => do
    let is1 ← process_method_statement st
    let is2 ← process_statements rest
    .ok (is1 ++ is2)

/-- The `CodeGenerator::process_method`. -/
def process_method (method : Method) : Except CodeGenError (List Instruction) := do
  let body ← process_statements method.statements
  .ok ([Instruction.Label ("start_" ++ method.name)] ++ body
    ++ [Instruction.Ret, Instruction.Label ("end_" ++ method.name)])

/-- The `CodeGenerator::process_loop`: appends nothing for an empty loop
body, otherwise requires the first statement to be a local call. -/
def process_loop (loop_def : Loop) : Except CodeGenError (List Instruction) :=
  match loop_def.statements.head? with
  | none => .ok []
  | some st =>
    match st with
    | .Call service method =>
      match service with
      | some _ =>
        .error (.InvalidStatement ("Expected Local Call - Got " ++ statementDisplay st))
      | none =>
        .ok [Instruction.Label "start_loop", Instruction.Call ("start_" ++ method),
             Instruction.Jump "start_loop", Instruction.Label "end_loop"]
    | _ => .error (.InvalidStatement ("Expected Call - Got " ++ statementDisplay st))

/-- The method loop of `CodeGenerator::process_service`. -/
def process_methods : List Method → Except CodeGenError (List Instruction)
  | [] => .ok []
  | m :: rest => do
    let is1 ← process_method m
    let is2 ← process_methods rest
    .ok (is1 ++ is2)

/-- The `CodeGenerator::process_service` (the whole of
`CodeGenerator::process` for one service). -/
def process_service (service : Service) : Except CodeGenError (List Instruction) := do
  let bodies ← process_methods service.methods
  let tail ←
    match service.loops.head? with
    | some loop_def => process_loop loop_def
    | none =>
      .ok [Instruction.CheckInterrupt,
           Instruction.Jump ("start_" ++ service.name ++ "_main")]
  .ok ([Instruction.Label ("start_" ++ service.name),
        Instruction.Jump ("start_" ++ service.name ++ "_main")]
    ++ bodies
    ++ [Instruction.Label ("start_" ++ service.name ++ "_main")]
    ++ tail
    ++ [Instruction.Label ("end_" ++ service.name ++ "_main"),
        Instruction.Label ("end_" ++ service.name)])

/-! ## `generate_bytecode` (`src/vm.rs`) -/

/-- Loop body of `generate_bytecode`: accumulate the encoded bytes and,
after appending a `Label`'s bytes, record `label → position` (position
just past the label instruction) and the inverse map. -/
def generate_bytecode_aux : List Instruction → List Nat → List (String × Nat) →
    List (Nat × String) → List Nat × List (String × Nat) × List (Nat × String)
  | [], bytes, jm, im => (bytes, jm, im)
  | instruction :: rest, bytes, jm, im =>
    let bytes1 := bytes ++ instruction.to_bytes
    match instruction with
    | .Label label =>
      generate_bytecode_aux rest bytes1 ((label, bytes1.length) :: jm)
        ((bytes1.length, label) :: im)
    | _ => generate_bytecode_aux rest bytes1 jm im

/-- The `generate_bytecode`: bytecode buffer, `label_jump_map` and
`label_index_map`. -/
def generate_bytecode (instructions : List Instruction) :
    List Nat × List (String × Nat) × List (Nat × String) :=
  generate_bytecode_aux instructions [] [] []

/-! ## `src/vm.rs`: state and errors -/

/-- The `VMError` (the `PrintError` payload is dropped: sends cannot fail in
the channel model, so the variant is unreachable). -/
inductive VMError
  | StackUnderflow
  | InvalidStackValue
  | MissingVar (var : String)
  | RemoteCallError (msg : String)
  | MissingLabel (label : String)
  | MissingSpan
  | PrintError
  | MaxExecutionCounterReached
  | InvalidTemplate (template : String)
  | IPOutOfBounds (ip len : Nat)
  | MissingFunctionName
  | MissingContext
  | InvalidInstruction (instruction : Nat)
  | MissingStackFrame
  deriving DecidableEq, Repr

inductive PrintMessage
  | Stdout (s : String)
  | Stderr (s : String)
  deriving DecidableEq, Repr

/-- The `ServiceMessage::Call` from `src/vm_coordinator.rs`; the
OpenTelemetry `context` field is dropped (it never influences VM
control flow). -/
inductive ServiceMessage
  | Call («to» : String) (function : String)
  deriving DecidableEq, Repr

/-- The `LENGTH_OFFSET = size_of::<usize>()` on a 64-bit host. -/
def LENGTH_OFFSET : Nat := 8

set_option synthInstance.maxHeartbeats 1000000 in
/-- The `VM` struct.  Channels are replaced by message lists
(`print_out`, `remote_out` record every message sent, in order;
`remote_call_rx` is the queue of pending inbound method names), the
tracer and context handles by `Bool` flags, and the meter provider is
omitted. -/
structure VM where
  code : List Nat
  stack : List (List StackValue)
  vars : List (String × StackValue)
  label_jump_map : List (String × Nat)
  label_index_map : List (Nat × String)
  ip : Nat
  print_out : List PrintMessage
  max_execution_counter : Option Nat
  return_addresses : List Nat
  remote_call_tx : Bool
  remote_out : List ServiceMessage
  remote_call_rx : Option (List String)
  remote_call_counter : Nat
  remote_call_limit : Nat
  service_name : String
  tracer : Bool
  otel_context : Bool
  deriving DecidableEq, Repr

/-- The `VM::new`. -/
def VM.new (code : List Instruction) (service_name : String) : VM :=
  let g := generate_bytecode code
  { code := g.1
    label_jump_map := g.2.1
    label_index_map := g.2.2
    stack := [[]]
    vars := []
    ip := 0
    print_out := []
    max_execution_counter := none
    return_addresses := []
    remote_call_tx := false
    remote_out := []
    remote_call_rx := none
    remote_call_counter := 0
    remote_call_limit := 10000
    service_name := service_name
    tracer := false
    otel_context := false }

def VM.with_max_execution_counter (s : VM) (max_execution_counter : Nat) : VM :=
  { s with max_execution_counter := some max_execution_counter }

def VM.with_remote_call_tx (s : VM) : VM :=
  { s with remote_call_tx := true }

def VM.with_remote_call_rx (s : VM) (queue : List String) : VM :=
  { s with remote_call_rx := some queue }

def VM.with_custom_remote_call_limit (s : VM) (limit : Nat) : VM :=
  { s with remote_call_limit := limit }

def VM.with_tracer (s : VM) : VM :=
  { s with tracer := true }

/-- Result of executing one instruction: the successor state, a
`VMError` (with the state as mutated up to the error), or a Rust
panic (`Ret` with no return address). -/
inductive StepResult
  | next (s : VM)
  | fault (e : VMError) (s : VM)
  | panicked
  deriving DecidableEq, Repr

/-- The `VM::extract_length`: `(start, end, length)` of the length field at
`ip + 1`. -/
def extract_length (s : VM) : Nat × Nat × Nat :=
  let start := s.ip + 1
  let endPos := start + LENGTH_OFFSET
  let length := leBytesToNat (listSlice s.code start endPos)
  (start, endPos, length)

/-- Outcome of `self.current_stackframe()?.pop().ok_or(StackUnderflow)?`:
no frame at all, an empty current frame (Rust `Vec::pop` on an empty
vector leaves it unchanged), or the popped value with the updated
state. -/
inductive PopResult
  | noFrame
  | underflow
  | popped (v : StackValue) (s : VM)
  deriving Repr

def popCurrent (s : VM) : PopResult :=
  match s.stack with
  | [] => .noFrame
  | frame :: frames =>
    match frame with
    | [] => .underflow
    | v :: rest => .popped v { s with stack := rest :: frames }

/-- The `self.current_stackframe()?.push(v)`; `none` is the
`MissingStackFrame` case. -/
def pushCurrent (s : VM) (v : StackValue) : Option VM :=
  match s.stack with
  | [] => none
  | frame :: frames => some { s with stack := (v :: frame) :: frames }

/-- The `VM::handle_local_call`: the return address and fresh frame are
pushed *before* the label lookup, and the pushed return address is the
current `ip`, which at a `Call` still points at the `Call` opcode. -/
def handle_local_call (s : VM) (label : String) : StepResult :=
  let s1 := { s with return_addresses := s.ip :: s.return_addresses,
                     stack := [] :: s.stack }
  match lookupStr s1.label_jump_map label with
  | some target => .next { s1 with ip := target }
  | none => .fault (.MissingLabel label) s1

/-- The `VM::handle_remote_call`: poll the inbound queue every
`remote_call_limit + 1` executions and service at most one pending
method name by a local call to `start_<method>`. -/
def handle_remote_call (s : VM) : StepResult :=
  match s.remote_call_rx with
  | none => .next s
  | some queue =>
    let s1 := { s with remote_call_counter := s.remote_call_counter + 1 }
    if s1.remote_call_counter > s1.remote_call_limit then
      match queue with
      | msg :: rest =>
        match handle_local_call { s1 with remote_call_rx := some rest }
            ("start_" ++ msg) with
        | .next s2 => .next { s2 with remote_call_counter := 0 }
        | r => r
      | [] => .next { s1 with remote_call_counter := 0 }
    else .next s1

/-- The `VM::find_current_function_name`: scan `ip - 1, ip - 2, …, 0` for a
recorded label position. -/
def find_label_below (im : List (Nat × String)) : Nat → Option String
  | 0 => none
  | i + 1 =>
    match lookupNat im i with
    | some label => some label
    | none => find_label_below im i

def find_current_function_name (s : VM) : Option String :=
  find_label_below s.label_index_map s.ip

/-! ## `VM::execute_instruction`, one arm per opcode

Each `exec_*` definition is the corresponding `match` arm of
`execute_instruction` in `src/vm.rs` (telemetry recording omitted). -/

/-- The `u64` subtraction by one with release-mode wrap-around (`Dec`). -/
def u64SubOne (n : Nat) : Nat :=
  (n + (2 ^ 64 - 1)) % 2 ^ 64

def exec_push_string (s : VM) : StepResult :=
  let e := extract_length s
  let endPos := e.2.1
  let str_len := e.2.2
  let str := utf8Decode (listSlice s.code endPos (endPos + str_len))
  match pushCurrent s (.String str) with
  | none => .fault .MissingStackFrame s
  | some s1 => .next { s1 with ip := endPos + str_len }

def exec_push_int (s : VM) : StepResult :=
  let e := extract_length s
  let endPos := e.2.1
  let int_len := e.2.2
  let int := leBytesToNat (listSlice s.code endPos (endPos + int_len))
  match pushCurrent s (.Int int) with
  | none => .fault .MissingStackFrame s
  | some s1 => .next { s1 with ip := endPos + int_len }

/-- The `POP_CODE` pops a whole *frame* off the call stack
(`self.stack.pop()`), not a value; popping with no frames is a no-op. -/
def exec_pop (s : VM) : StepResult :=
  .next { s with stack := s.stack.tail, ip := s.ip + 1 }

def exec_dec (s : VM) : StepResult :=
  match popCurrent s with
  | .noFrame => .fault .MissingStackFrame s
  | .underflow => .fault .StackUnderflow s
  | .popped top s1 =>
    match top with
    | .Int n =>
      match pushCurrent s1 (.Int (u64SubOne n)) with
      | none => .fault .MissingStackFrame s1
      | some s2 => .next { s2 with ip := s2.ip + 1 }
    | _ => .fault .InvalidStackValue s1

/-- The `JMP_IF_ZERO_CODE`: pop the top; on `Int(0)` set `ip` to the label
position, then — in every int case — run the arm's trailing
`self.ip += 1`. -/
def exec_jmp_if_zero (s : VM) : StepResult :=
  let e := extract_length s
  let endPos := e.2.1
  let jump_to_label_len := e.2.2
  let jump_to_label := utf8Decode (listSlice s.code endPos (endPos + jump_to_label_len))
  match popCurrent s with
  | .noFrame => .fault .MissingStackFrame s
  | .underflow => .fault .StackUnderflow s
  | .popped top s1 =>
    match top with
    | .Int n =>
      if n = 0 then
        match lookupStr s1.label_jump_map jump_to_label with
        | some target => .next { s1 with ip := target + 1 }
        | none => .fault (.MissingLabel jump_to_label) s1
      else .next { s1 with ip := s1.ip + 1 }
    | _ => .fault .InvalidStackValue s1

def exec_label (s : VM) : StepResult :=
  let e := extract_length s
  let endPos := e.2.1
  let label_len := e.2.2
  .next { s with ip := endPos + label_len }

def exec_stdout (s : VM) : StepResult :=
  match popCurrent s with
  | .noFrame => .fault .MissingStackFrame s
  | .underflow => .fault .StackUnderflow s
  | .popped v s1 =>
    match v with
    | .String str =>
      .next { s1 with print_out := s1.print_out ++ [.Stdout str], ip := s1.ip + 1 }
    | .Int i =>
      .next { s1 with print_out := s1.print_out ++ [.Stdout (toString i)], ip := s1.ip + 1 }

def exec_stderr (s : VM) : StepResult :=
  match popCurrent s with
  | .noFrame => .fault .MissingStackFrame s
  | .underflow => .fault .StackUnderflow s
  | .popped v s1 =>
    match v with
    | .String str =>
      .next { s1 with print_out := s1.print_out ++ [.Stderr str], ip := s1.ip + 1 }
    | _ => .fault .InvalidStackValue s1

/-- The `SLEEP_CODE`: the blocking wait has no observable effect in the
model; only the operand decoding and `ip` advance remain. -/
def exec_sleep (s : VM) : StepResult :=
  let e := extract_length s
  let endPos := e.2.1
  let sleep_len := e.2.2
  .next { s with ip := endPos + sleep_len }

def exec_store_var (s : VM) : StepResult :=
  let e := extract_length s
  let end1 := e.2.1
  let key_len := e.2.2
  let key := utf8Decode (listSlice s.code end1 (end1 + key_len))
  let s1 := { s with ip := end1 + key_len - 1 }
  let e2 := extract_length s1
  let end2 := e2.2.1
  let value_len := e2.2.2
  let value := utf8Decode (listSlice s1.code end2 (end2 + value_len))
  .next { s1 with vars := (key, StackValue.String value) :: s1.vars,
                  ip := end2 + value_len }

def exec_load_var (s : VM) : StepResult :=
  let e := extract_length s
  let endPos := e.2.1
  let key_len := e.2.2
  let key := utf8Decode (listSlice s.code endPos (endPos + key_len))
  match lookupVar s.vars key with
  | none => .fault (.MissingVar key) s
  | some value =>
    match pushCurrent s value with
    | none => .fault .MissingStackFrame s
    | some s1 => .next { s1 with ip := endPos + key_len }

def exec_dup (s : VM) : StepResult :=
  match s.stack with
  | [] => .fault .MissingStackFrame s
  | frame :: frames =>
    match frame with
    | [] => .fault .StackUnderflow s
    | top :: _ => .next { s with stack := (top :: frame) :: frames, ip := s.ip + 1 }

def exec_jump (s : VM) : StepResult :=
  let e := extract_length s
  let endPos := e.2.1
  let jump_to_label_len := e.2.2
  let jump_to_label := utf8Decode (listSlice s.code endPos (endPos + jump_to_label_len))
  match lookupStr s.label_jump_map jump_to_label with
  | some target => .next { s with ip := target }
  | none => .fault (.MissingLabel jump_to_label) s

/-- The `PRINTF_CODE`: pop the value, pop the template; a template
containing `%s` requires a string value and replaces **every** `%s`
occurrence (`str::replace`); otherwise one containing `%d` requires an
int value and replaces every `%d`; otherwise `InvalidTemplate`. -/
def exec_printf (s : VM) : StepResult :=
  match popCurrent s with
  | .noFrame => .fault .MissingStackFrame s
  | .underflow => .fault .StackUnderflow s
  | .popped var s1 =>
    match popCurrent s1 with
    | .noFrame => .fault .MissingStackFrame s1
    | .underflow => .fault .StackUnderflow s1
    | .popped template s2 =>
      match template with
      | .Int _ => .fault .InvalidStackValue s2
      | .String template =>
        if str_contains template "%s" then
          match var with
          | .String var =>
            match pushCurrent s2 (.String (str_replace template "%s" var)) with
            | none => .fault .MissingStackFrame s2
            | some s3 => .next { s3 with ip := s3.ip + 1 }
          | .Int _ => .fault .InvalidStackValue s2
        else if str_contains template "%d" then
          match var with
          | .Int i =>
            match pushCurrent s2 (.String (str_replace template "%d" (toString i))) with
            | none => .fault .MissingStackFrame s2
            | some s3 => .next { s3 with ip := s3.ip + 1 }
          | .String _ => .fault .InvalidStackValue s2
        else .fault (.InvalidTemplate template) s2

/-- The `REMOTE_CALL_CODE`: requires an outbound channel, pops the method
then the service, requires an enclosing function label and — when a
tracer is configured — a current context, then sends
`ServiceMessage::Call` (display-formatted operands). -/
def exec_remote_call (s : VM) : StepResult :=
  if s.remote_call_tx = false then
    .fault (.RemoteCallError "Remote call tx not set") s
  else
    match popCurrent s with
    | .noFrame => .fault .MissingStackFrame s
    | .underflow => .fault .StackUnderflow s
    | .popped remote_method s1 =>
      match popCurrent s1 with
      | .noFrame => .fault .MissingStackFrame s1
      | .underflow => .fault .StackUnderflow s1
      | .popped remote_service s2 =>
        match find_current_function_name s2 with
        | none => .fault .MissingFunctionName s2
        | some _ =>
          if s2.tracer && !s2.otel_context then .fault .MissingContext s2
          else
            .next { s2 with
              remote_out := s2.remote_out ++
                [.Call (stackValueDisplay remote_service) (stackValueDisplay remote_method)],
              ip := s2.ip + 1 }

def exec_start_context (s : VM) : StepResult :=
  if s.tracer then .next { s with otel_context := true, ip := s.ip + 1 }
  else .next { s with ip := s.ip + 1 }

def exec_end_context (s : VM) : StepResult :=
  if s.otel_context then .next { s with otel_context := false, ip := s.ip + 1 }
  else .fault .MissingSpan s

/-- The `CHECK_INTERRUPT_CODE` runs `handle_remote_call` and nothing else:
in particular the arm never advances `ip`. -/
def exec_check_interrupt (s : VM) : StepResult :=
  handle_remote_call s

/-- The `CALL_CODE` decodes the label and delegates to `handle_local_call`
without having advanced `ip` past the `Call` instruction. -/
def exec_call (s : VM) : StepResult :=
  let e := extract_length s
  let endPos := e.2.1
  let label_len := e.2.2
  let label := utf8Decode (listSlice s.code endPos (endPos + label_len))
  handle_local_call s label

/-- The `RET_CODE`: `ip = return_addresses.pop().unwrap()` (a panic when
empty) and pop the current frame. -/
def exec_ret (s : VM) : StepResult :=
  match s.return_addresses with
  | [] => .panicked
  | addr :: rest =>
    .next { s with ip := addr, return_addresses := rest, stack := s.stack.tail }

/-- The `VM::execute_instruction`: dispatch on the opcode byte at `ip`
(`let instruction = self.code[self.ip]` is inlined as
`byteAt s.code s.ip`). -/
def execute_instruction (s : VM) : StepResult :=
  if byteAt s.code s.ip = PUSH_STRING_CODE then exec_push_string s
  else if byteAt s.code s.ip = PUSH_INT_CODE then exec_push_int s
  else if byteAt s.code s.ip = POP_CODE then exec_pop s
  else if byteAt s.code s.ip = DEC_CODE then exec_dec s
  else if byteAt s.code s.ip = JMP_IF_ZERO_CODE then exec_jmp_if_zero s
  else if byteAt s.code s.ip = LABEL_CODE then exec_label s
  else if byteAt s.code s.ip = STDOUT_CODE then exec_stdout s
  else if byteAt s.code s.ip = STDERR_CODE then exec_stderr s
  else if byteAt s.code s.ip = SLEEP_CODE then exec_sleep s
  else if byteAt s.code s.ip = STORE_VAR_CODE then exec_store_var s
  else if byteAt s.code s.ip = LOAD_VAR_CODE then exec_load_var s
  else if byteAt s.code s.ip = DUP_CODE then exec_dup s
  else if byteAt s.code s.ip = JUMP_CODE then exec_jump s
  else if byteAt s.code s.ip = PRINTF_CODE then exec_printf s
  else if byteAt s.code s.ip = REMOTE_CALL_CODE then exec_remote_call s
  else if byteAt s.code s.ip = START_CONTEXT_CODE then exec_start_context s
  else if byteAt s.code s.ip = END_CONTEXT_CODE then exec_end_context s
  else if byteAt s.code s.ip = CHECK_INTERRUPT_CODE then exec_check_interrupt s
  else if byteAt s.code s.ip = CALL_CODE then exec_call s
  else if byteAt s.code s.ip = RET_CODE then exec_ret s
  else .fault (.InvalidInstruction (byteAt s.code s.ip)) s

/-! ## `VM::run` -/

/-- Result of `run()`.  `ok`/`err` carry the final VM state (so the
messages sent on the channels can be read off) and the number of
completed instruction executions (`execution_counter`); `outOfFuel`
means the supplied step bound was exhausted before `run()` returned. -/
inductive RunResult
  | ok (final : VM) (count : Nat)
  | err (e : VMError) (final : VM) (count : Nat)
  | panicked
  | outOfFuel
  deriving DecidableEq, Repr

/-- The `while self.ip < self.code.len()` loop of `VM::run`: execute an
instruction, bump `execution_counter`, and fail once the counter
exceeds a configured `max_execution_counter`. -/
def run_aux : Nat → VM → Nat → RunResult
  | 0, _, _ => .outOfFuel
  | fuel + 1, s, execution_counter =>
    if s.ip < s.code.length then
      match execute_instruction s with
      | .panicked => .panicked
      | .fault e s1 => .err e s1 execution_counter
      | .next s1 =>
        let execution_counter1 := execution_counter + 1
        match s1.max_execution_counter with
        | some max_execution_counter =>
          if execution_counter1 > max_execution_counter then
            .err .MaxExecutionCounterReached s1 execution_counter1
          else run_aux fuel s1 execution_counter1
        | none => run_aux fuel s1 execution_counter1
    else .ok s execution_counter

def VM.run (s : VM) (fuel : Nat) : RunResult :=
  run_aux fuel s 0

/-- The same loop with the watchdog check removed: pure execution until
the bytecode is exhausted (used to express "the bytecode is exhausted
within N instructions" independently of `max_execution_counter`). -/
def run_no_limit_aux : Nat → VM → Nat → RunResult
  | 0, _, _ => .outOfFuel
  | fuel + 1, s, execution_counter =>
    if s.ip < s.code.length then
      match execute_instruction s with
      | .panicked => .panicked
      | .fault e s1 => .err e s1 execution_counter
      | .next s1 => run_no_limit_aux fuel s1 (execution_counter + 1)
    else .ok s execution_counter

/-- Iterate `execute_instruction` exactly `n` times (stopping early on a
fault or panic). -/
def stepN : Nat → VM → Option VM
  | 0, s => some s
  | n + 1, s =>
    match execute_instruction s with
    | .next s1 => stepN n s1
    | _ => none

/-! ## Observation helpers for run results -/

/-- All messages sent on the print channel by the time `run()`
returned. -/
def RunResult.printMessages : RunResult → List PrintMessage
  | .ok s _ => s.print_out
  | .err _ s _ => s.print_out
  | _ => []

/-- The error `run()` returned with, if any. -/
def RunResult.errorOf : RunResult → Option VMError
  | .err e _ _ => some e
  | _ => none

/-- The number of completed instruction executions recorded in the
result. -/
def RunResult.count : RunResult → Nat
  | .ok _ c => c
  | .err _ _ c => c
  | _ => 0

def RunResult.isMaxCounterErr : RunResult → Bool
  | .err .MaxExecutionCounterReached _ _ => true
  | _ => false

def RunResult.isOk : RunResult → Bool
  | .ok _ _ => true
  | _ => false

/-! ## Static views of an instruction stream -/

/-- The labels named by the control-transfer instructions (`Jump`,
`JmpIfZero`, `Call`) of a stream. -/
def jump_targets (instructions : List Instruction) : List String :=
  instructions.filterMap (fun i =>
    match i with
    | .Jump l => some l
    | .JmpIfZero l => some l
    | .Call l => some l
    | _ => none)

/-- The labels declared by `Label` instructions of a stream. -/
def instr_labels (instructions : List Instruction) : List String :=
  instructions.filterMap (fun i =>
    match i with
    | .Label l => some l
    | _ => none)

/-- Whether the service's loop (if any) only calls methods the service
declares: the side condition under which every generated `Call` target
is a declared label. -/
def loop_call_ok (svc : Service) : Bool :=
  match svc.loops.head? with
  | none => true
  | some ld =>
    match ld.statements.head? with
    | some (.Call none m) => (svc.methods.map Method.name).contains m
    | _ => true

/-- Correctness kernel for the watchdog argument: one executed
instruction never itself raises `MaxExecutionCounterReached` (only the
`run()` loop does) and never changes the configured
`max_execution_counter`. -/
def StepResOk (s : VM) : StepResult → Prop
  | .next s1 => s1.max_execution_counter = s.max_execution_counter
  | .fault e s1 => e ≠ .MaxExecutionCounterReached ∧
      s1.max_execution_counter = s.max_execution_counter
  | .panicked => True

/-! ## Concrete programs used by the claims -/

/-- The S1 source
`service frontend { method main_page { print "Main page" } }`
as the syntax tree the parser grammar (§4.1) assigns to it. -/
def svcS1 : Service :=
  { name := "frontend",
    methods := [{ name := "main_page", statements := [.Stdout "Main page" none] }],
    loops := [] }

/-- The S2 source: S1 plus `loop { call main_page }`. -/
def svcS2 : Service :=
  { name := "frontend",
    methods := [{ name := "main_page", statements := [.Stdout "Main page" none] }],
    loops := [{ statements := [.Call none "main_page"] }] }

/-- The instruction stream the code generator produces for `svcS2`. -/
def c2Instrs : List Instruction :=
  [.Label "start_frontend", .Jump "start_frontend_main",
   .Label "start_main_page", .Push (.String "Main page"), .Stdout, .Ret,
   .Label "end_main_page", .Label "start_frontend_main",
   .Label "start_loop", .Call "start_main_page", .Jump "start_loop", .Label "end_loop",
   .Label "end_frontend_main", .Label "end_frontend"]

/-- Running `svcS2`'s code with `max_execution_counter = 30` (fuel 100
far exceeds the 31 instructions the watchdog admits). -/
def c2Run : RunResult :=
  ((VM.new c2Instrs "frontend").with_max_execution_counter 30).run 100

/-- The service of the repository's own `test_vm_with_local_call` test
(`print "Main page"; sleep 1ms` in the method, `loop { call main_page }`),
which that test runs with `max_execution_counter = 30` and for which it
asserts exactly 5 prints. -/
def svcTestLocalCall : Service :=
  { name := "frontend",
    methods := [{ name := "main_page",
                  statements := [.Stdout "Main page" none, .Sleep 1] }],
    loops := [{ statements := [.Call none "main_page"] }] }

def testLocalCallInstrs : List Instruction :=
  [.Label "start_frontend", .Jump "start_frontend_main",
   .Label "start_main_page", .Push (.String "Main page"), .Stdout, .Sleep 1, .Ret,
   .Label "end_main_page", .Label "start_frontend_main",
   .Label "start_loop", .Call "start_main_page", .Jump "start_loop", .Label "end_loop",
   .Label "end_frontend_main", .Label "end_frontend"]

def testLocalCallRun : RunResult :=
  ((VM.new testLocalCallInstrs "frontend").with_max_execution_counter 30).run 100

/-- Minimal `Call`/`Ret` program: `Jump main; Label f; Ret; Label main;
Call f; Stdout`.  In its encoding the `Call` opcode sits at byte offset
37 (= the recorded position of label `main`) and the whole `Call`
instruction ends at byte offset 47. -/
def progC1 : List Instruction :=
  [.Jump "main", .Label "f", .Ret, .Label "main", .Call "f", .Stdout]

/-- The `JmpIfZero` taken-branch program: the popped top is `Int(0)` and
label `L`'s recorded position is 54. -/
def progC3zero : List Instruction :=
  [.Push (.Int 0), .JmpIfZero "L", .Push (.String "skipped"), .Stdout,
   .Label "L", .Push (.String "hi"), .Stdout]

/-- The `JmpIfZero` fall-through program: the popped top is `Int(7)`; the
`JmpIfZero` opcode sits at byte offset 17 and its instruction ends at
byte offset 27. -/
def progC3nonzero : List Instruction :=
  [.Push (.Int 7), .JmpIfZero "L", .Push (.String "next"), .Stdout, .Label "L"]

/-- The `JmpIfZero` with a non-int top. -/
def progC3string : List Instruction :=
  [.Push (.String "x"), .JmpIfZero "L", .Label "L"]

/-- The `Printf` whose template holds two `%s` occurrences. -/
def progC4 : List Instruction :=
  [.Push (.String "%s%s"), .Push (.String "ab"), .Printf, .Stdout]

def c4Run : RunResult := (VM.new progC4 "test").run 100

/-- The `Printf` whose template holds `%s` but whose value is an `Int`. -/
def progC5 : List Instruction :=
  [.Push (.String "Hello, %s!"), .Push (.Int 1), .Printf]

def c5Run : RunResult := (VM.new progC5 "test").run 100

/-- A service whose loop calls a method name the service does not
declare; codegen accepts it. -/
def svcC6 : Service :=
  { name := "frontend",
    methods := [{ name := "main_page", statements := [.Stdout "Main page" none] }],
    loops := [{ statements := [.Call none "missing"] }] }

def c6Instrs : List Instruction :=
  [.Label "start_frontend", .Jump "start_frontend_main",
   .Label "start_main_page", .Push (.String "Main page"), .Stdout, .Ret,
   .Label "end_main_page", .Label "start_frontend_main",
   .Label "start_loop", .Call "start_missing", .Jump "start_loop", .Label "end_loop",
   .Label "end_frontend_main", .Label "end_frontend"]

/-- Two-instruction program for the watchdog witnesses. -/
def progC8 : List Instruction :=
  [.Push (.String "x"), .Stdout]

/-- The `Stdout` with an `Int` on top of the current frame (the opcode at
`ip = 0` is `Stdout`). -/
def c9VMstdout : VM :=
  { VM.new [.Stdout] "test" with stack := [[.Int 12345]] }

/-- The `Stderr` with an `Int` on top of the current frame. -/
def c9VMstderr : VM :=
  { VM.new [.Stderr] "test" with stack := [[.Int 12345]] }

/-- The `CheckInterrupt` with no inbound channel configured. -/
def c10VM : VM :=
  VM.new [.CheckInterrupt] "test"

/-- The `Printf` states for the witnesses: opcode at `ip = 0` is `Printf`,
stack holds value then template. -/
def c4VM : VM :=
  { VM.new [.Printf] "test" with stack := [[.String "ab", .String "%s%s"]] }

def c5VM : VM :=
  { VM.new [.Printf] "test" with stack := [[.Int 1, .String "Hello, %s!"]] }

/-- The `ip` of the successor state when one instruction execution
succeeds. -/
def StepResult.ipOf : StepResult → Option Nat
  | .next s1 => some s1.ip
  | _ => none

/-- The final VM state carried by a run result. -/
def RunResult.finalVM : RunResult → VM
  | .ok s _ => s
  | .err _ s _ => s
  | _ => VM.new [] ""

/-- The watchdog witnesses: `progC8` under `max_execution_counter = 0`
and under `max_execution_counter = 2`. -/
def c8VMa : VM := (VM.new progC8 "test").with_max_execution_counter 0

def c8VMb : VM := (VM.new progC8 "test").with_max_execution_counter 2

/-! # Theorems

First a preservation kernel: no single executed instruction raises
`MaxExecutionCounterReached` itself or changes the configured
`max_execution_counter`; only the `run()` watchdog does. -/

/-- The `StepResOk2 s r`: the successor state of `r` keeps `s`'s
`max_execution_counter`, and a fault of `r` is never
`MaxExecutionCounterReached` (and also keeps the field). -/
def StepResOk2 (s : VM) (r : StepResult) : Prop :=
  (∀ s1, r = .next s1 → s1.max_execution_counter = s.max_execution_counter) ∧
  (∀ e s1, r = .fault e s1 →
    e ≠ .MaxExecutionCounterReached ∧ s1.max_execution_counter = s.max_execution_counter)

theorem exec_push_string_ok (s : VM) : StepResOk2 s (exec_push_string s) := by
  rcases hs : s.stack with _ | ⟨f, fs⟩ <;>
    simp [StepResOk2, exec_push_string, pushCurrent, hs]

theorem exec_push_int_ok (s : VM) : StepResOk2 s (exec_push_int s) := by
  rcases hs : s.stack with _ | ⟨f, fs⟩ <;>
    simp [StepResOk2, exec_push_int, pushCurrent, hs]

theorem exec_pop_ok (s : VM) : StepResOk2 s (exec_pop s) := by
  simp [StepResOk2, exec_pop]

theorem exec_dec_ok (s : VM) : StepResOk2 s (exec_dec s) := by
  rcases hs : s.stack with _ | ⟨f, fs⟩
  · simp [StepResOk2, exec_dec, popCurrent, hs]
  · rcases f with _ | ⟨v, rest⟩
    · simp [StepResOk2, exec_dec, popCurrent, hs]
    · cases v <;> simp [StepResOk2, exec_dec, popCurrent, pushCurrent, hs]

theorem exec_jmp_if_zero_ok (s : VM) : StepResOk2 s (exec_jmp_if_zero s) := by
  rcases hs : s.stack with _ | ⟨f, fs⟩
  · simp [StepResOk2, exec_jmp_if_zero, popCurrent, hs]
  · rcases f with _ | ⟨v, rest⟩
    · simp [StepResOk2, exec_jmp_if_zero, popCurrent, hs]
    · rcases v with t | n
      · simp [StepResOk2, exec_jmp_if_zero, popCurrent, hs]
      · by_cases hn : n = 0
        · rcases hl : lookupStr s.label_jump_map
              (utf8Decode (listSlice s.code (extract_length s).2.1
                ((extract_length s).2.1 + (extract_length s).2.2))) with _ | target <;>
            simp [StepResOk2, exec_jmp_if_zero, popCurrent, hs, hn, hl]
        · simp [StepResOk2, exec_jmp_if_zero, popCurrent, hs, hn]

theorem exec_label_ok (s : VM) : StepResOk2 s (exec_label s) := by
  simp [StepResOk2, exec_label]

theorem exec_stdout_ok (s : VM) : StepResOk2 s (exec_stdout s) := by
  rcases hs : s.stack with _ | ⟨f, fs⟩
  · simp [StepResOk2, exec_stdout, popCurrent, hs]
  · rcases f with _ | ⟨v, rest⟩
    · simp [StepResOk2, exec_stdout, popCurrent, hs]
    · cases v <;> simp [StepResOk2, exec_stdout, popCurrent, hs]

theorem exec_stderr_ok (s : VM) : StepResOk2 s (exec_stderr s) := by
  rcases hs : s.stack with _ | ⟨f, fs⟩
  · simp [StepResOk2, exec_stderr, popCurrent, hs]
  · rcases f with _ | ⟨v, rest⟩
    · simp [StepResOk2, exec_stderr, popCurrent, hs]
    · cases v <;> simp [StepResOk2, exec_stderr, popCurrent, hs]

theorem exec_sleep_ok (s : VM) : StepResOk2 s (exec_sleep s) := by
  simp [StepResOk2, exec_sleep]

theorem exec_store_var_ok (s : VM) : StepResOk2 s (exec_store_var s) := by
  simp [StepResOk2, exec_store_var]

theorem exec_load_var_ok (s : VM) : StepResOk2 s (exec_load_var s) := by
  rcases hv : lookupVar s.vars
      (utf8Decode (listSlice s.code (extract_length s).2.1
        ((extract_length s).2.1 + (extract_length s).2.2))) with _ | value
  · simp [StepResOk2, exec_load_var, hv]
  · rcases hs : s.stack with _ | ⟨f, fs⟩ <;>
      simp [StepResOk2, exec_load_var, pushCurrent, hv, hs]

theorem exec_dup_ok (s : VM) : StepResOk2 s (exec_dup s) := by
  rcases hs : s.stack with _ | ⟨f, fs⟩
  · simp [StepResOk2, exec_dup, hs]
  · rcases f with _ | ⟨v, rest⟩ <;> simp [StepResOk2, exec_dup, hs]

theorem exec_jump_ok (s : VM) : StepResOk2 s (exec_jump s) := by
  rcases hl : lookupStr s.label_jump_map
      (utf8Decode (listSlice s.code (extract_length s).2.1
        ((extract_length s).2.1 + (extract_length s).2.2))) with _ | target <;>
    simp [StepResOk2, exec_jump, hl]

theorem exec_printf_ok (s : VM) : StepResOk2 s (exec_printf s) := by
  rcases hs : s.stack with _ | ⟨f, fs⟩
  · simp [StepResOk2, exec_printf, popCurrent, hs]
  · rcases f with _ | ⟨var, f1⟩
    · simp [StepResOk2, exec_printf, popCurrent, hs]
    · rcases f1 with _ | ⟨tmpl, rest⟩
      · simp [StepResOk2, exec_printf, popCurrent, hs]
      · rcases tmpl with t | n
        · by_cases h1 : str_contains t "%s"
          · cases var <;>
              simp [StepResOk2, exec_printf, popCurrent, pushCurrent, hs, h1]
          · by_cases h2 : str_contains t "%d"
            · cases var <;>
                simp [StepResOk2, exec_printf, popCurrent, pushCurrent, hs, h1, h2]
            · simp [StepResOk2, exec_printf, popCurrent, hs, h1, h2]
        · simp [StepResOk2, exec_printf, popCurrent, hs]

theorem exec_start_context_ok (s : VM) : StepResOk2 s (exec_start_context s) := by
  by_cases ht : s.tracer <;> simp [StepResOk2, exec_start_context, ht]

theorem exec_end_context_ok (s : VM) : StepResOk2 s (exec_end_context s) := by
  by_cases hc : s.otel_context <;> simp [StepResOk2, exec_end_context, hc]

theorem handle_local_call_ok (s : VM) (label : String) :
    StepResOk2 s (handle_local_call s label) := by
  rcases hl : lookupStr s.label_jump_map label with _ | target <;>
    simp [StepResOk2, handle_local_call, hl]


theorem exec_remote_call_ok (s : VM) : StepResOk2 s (exec_remote_call s) := by
  cases htx : s.remote_call_tx
  · simp [StepResOk2, exec_remote_call, htx]
  · unfold exec_remote_call
    rw [if_neg (by simp [htx])]
    rcases hs : s.stack with _ | ⟨f, fs⟩
    · simp [StepResOk2, popCurrent, hs]
    · rcases f with _ | ⟨m, f1⟩
      · simp [StepResOk2, popCurrent, hs]
      · rcases f1 with _ | ⟨sv, rest⟩
        · simp [StepResOk2, popCurrent, hs]
        · rcases hfn : find_current_function_name { s with stack := rest :: fs } with _ | fname
          · simp [StepResOk2, popCurrent, hs, hfn]
          · by_cases hct : (s.tracer && !s.otel_context) = true <;>
              simp [StepResOk2, popCurrent, hs, hfn, hct]

theorem handle_remote_call_ok (s : VM) : StepResOk2 s (handle_remote_call s) := by
  rcases hr : s.remote_call_rx with _ | queue
  · simp [StepResOk2, handle_remote_call, hr]
  · by_cases hcnt : s.remote_call_counter + 1 > s.remote_call_limit
    · rcases queue with _ | ⟨msg, rest⟩
      · simp [StepResOk2, handle_remote_call, hr, hcnt]
      · have hok := handle_local_call_ok
          { s with remote_call_counter := s.remote_call_counter + 1,
                   remote_call_rx := some rest } ("start_" ++ msg)
        rcases hc : handle_local_call
            { s with remote_call_counter := s.remote_call_counter + 1,
                     remote_call_rx := some rest } ("start_" ++ msg) with s3 | ⟨e, s3⟩ | _
        · have h3 := hok.1 s3 hc
          dsimp only at h3
          simp [StepResOk2, handle_remote_call, hr, hcnt, hc, h3]
        · have h3 := hok.2 e s3 hc
          dsimp only at h3
          simp [StepResOk2, handle_remote_call, hr, hcnt, hc, h3.1, h3.2]
        · simp [StepResOk2, handle_remote_call, hr, hcnt, hc]
    · simp [StepResOk2, handle_remote_call, hr, hcnt]

theorem exec_check_interrupt_ok (s : VM) : StepResOk2 s (exec_check_interrupt s) := by
  simpa [exec_check_interrupt] using handle_remote_call_ok s

theorem exec_call_ok (s : VM) : StepResOk2 s (exec_call s) := by
  simpa [exec_call] using handle_local_call_ok s
    (utf8Decode (listSlice s.code (extract_length s).2.1
      ((extract_length s).2.1 + (extract_length s).2.2)))

theorem exec_ret_ok (s : VM) : StepResOk2 s (exec_ret s) := by
  rcases hr : s.return_addresses with _ | ⟨addr, rest⟩ <;>
    simp [StepResOk2, exec_ret, hr]

/-- No arm of `execute_instruction` raises `MaxExecutionCounterReached`
itself or changes `max_execution_counter`. -/
theorem execute_instruction_ok (s : VM) : StepResOk2 s (execute_instruction s) := by
  unfold execute_instruction
  by_cases h1 : byteAt s.code s.ip = PUSH_STRING_CODE
  · rw [if_pos h1]; exact exec_push_string_ok s
  rw [if_neg h1]
  by_cases h2 : byteAt s.code s.ip = PUSH_INT_CODE
  · rw [if_pos h2]; exact exec_push_int_ok s
  rw [if_neg h2]
  by_cases h3 : byteAt s.code s.ip = POP_CODE
  · rw [if_pos h3]; exact exec_pop_ok s
  rw [if_neg h3]
  by_cases h4 : byteAt s.code s.ip = DEC_CODE
  · rw [if_pos h4]; exact exec_dec_ok s
  rw [if_neg h4]
  by_cases h5 : byteAt s.code s.ip = JMP_IF_ZERO_CODE
  · rw [if_pos h5]; exact exec_jmp_if_zero_ok s
  rw [if_neg h5]
  by_cases h6 : byteAt s.code s.ip = LABEL_CODE
  · rw [if_pos h6]; exact exec_label_ok s
  rw [if_neg h6]
  by_cases h7 : byteAt s.code s.ip = STDOUT_CODE
  · rw [if_pos h7]; exact exec_stdout_ok s
  rw [if_neg h7]
  by_cases h8 : byteAt s.code s.ip = STDERR_CODE
  · rw [if_pos h8]; exact exec_stderr_ok s
  rw [if_neg h8]
  by_cases h9 : byteAt s.code s.ip = SLEEP_CODE
  · rw [if_pos h9]; exact exec_sleep_ok s
  rw [if_neg h9]
  by_cases h10 : byteAt s.code s.ip = STORE_VAR_CODE
  · rw [if_pos h10]; exact exec_store_var_ok s
  rw [if_neg h10]
  by_cases h11 : byteAt s.code s.ip = LOAD_VAR_CODE
  · rw [if_pos h11]; exact exec_load_var_ok s
  rw [if_neg h11]
  by_cases h12 : byteAt s.code s.ip = DUP_CODE
  · rw [if_pos h12]; exact exec_dup_ok s
  rw [if_neg h12]
  by_cases h13 : byteAt s.code s.ip = JUMP_CODE
  · rw [if_pos h13]; exact exec_jump_ok s
  rw [if_neg h13]
  by_cases h14 : byteAt s.code s.ip = PRINTF_CODE
  · rw [if_pos h14]; exact exec_printf_ok s
  rw [if_neg h14]
  by_cases h15 : byteAt s.code s.ip = REMOTE_CALL_CODE
  · rw [if_pos h15]; exact exec_remote_call_ok s
  rw [if_neg h15]
  by_cases h16 : byteAt s.code s.ip = START_CONTEXT_CODE
  · rw [if_pos h16]; exact exec_start_context_ok s
  rw [if_neg h16]
  by_cases h17 : byteAt s.code s.ip = END_CONTEXT_CODE
  · rw [if_pos h17]; exact exec_end_context_ok s
  rw [if_neg h17]
  by_cases h18 : byteAt s.code s.ip = CHECK_INTERRUPT_CODE
  · rw [if_pos h18]; exact exec_check_interrupt_ok s
  rw [if_neg h18]
  by_cases h19 : byteAt s.code s.ip = CALL_CODE
  · rw [if_pos h19]; exact exec_call_ok s
  rw [if_neg h19]
  by_cases h20 : byteAt s.code s.ip = RET_CODE
  · rw [if_pos h20]; exact exec_ret_ok s
  rw [if_neg h20]
  simp [StepResOk2]

/-! ## Watchdog lemmas about `run_aux` -/

/-- Whenever `run()` returns `MaxExecutionCounterReached`, the recorded
execution count exceeds the configured bound. -/
theorem run_aux_max_err : ∀ (fuel : Nat) (s : VM) (c : Nat) (st : VM) (k N : Nat),
    s.max_execution_counter = some N →
    run_aux fuel s c = .err .MaxExecutionCounterReached st k → N < k := by
  intro fuel
  induction fuel with
  | zero => intro s c st k N hmax h; simp [run_aux] at h
  | succ fuel ih =>
    intro s c st k N hmax h
    simp only [run_aux] at h
    by_cases hip : s.ip < s.code.length
    · rw [if_pos hip] at h
      rcases he : execute_instruction s with s1 | ⟨e, s1⟩ | _ <;> simp only [he] at h
      · have hmax1 : s1.max_execution_counter = some N := by
          rw [(execute_instruction_ok s).1 s1 he]; exact hmax
        simp only [hmax1] at h
        by_cases hgt : c + 1 > N
        · rw [if_pos hgt] at h
          simp only [RunResult.err.injEq] at h
          omega
        · rw [if_neg hgt] at h
          exact ih s1 (c + 1) st k N hmax1 h
      · simp only [RunResult.err.injEq] at h
        have hne := ((execute_instruction_ok s).2 e s1 he).1
        simp [h.1] at hne
      · simp at h
    · rw [if_neg hip] at h
      simp at h

/-- The count returned by an `ok` of the watchdog-free loop is at least
the running counter it started from. -/
theorem run_no_limit_count_le : ∀ (fuel : Nat) (s : VM) (c : Nat) (st : VM) (k : Nat),
    run_no_limit_aux fuel s c = .ok st k → c ≤ k := by
  intro fuel
  induction fuel with
  | zero => intro s c st k h; simp [run_no_limit_aux] at h
  | succ fuel ih =>
    intro s c st k h
    simp only [run_no_limit_aux] at h
    by_cases hip : s.ip < s.code.length
    · rw [if_pos hip] at h
      rcases he : execute_instruction s with s1 | ⟨e, s1⟩ | _ <;> simp only [he] at h
      · exact Nat.le_of_succ_le (ih s1 (c + 1) st k h)
      · cases h
      · cases h
    · rw [if_neg hip] at h
      simp only [RunResult.ok.injEq] at h
      omega

/-- When the bytecode is exhausted within the watchdog bound, the
watchdog run returns the same `ok` outcome as the unbounded loop. -/
theorem run_no_limit_to_run : ∀ (fuel : Nat) (s : VM) (c : Nat) (st : VM) (k N : Nat),
    s.max_execution_counter = some N →
    run_no_limit_aux fuel s c = .ok st k → k ≤ N →
    run_aux fuel s c = .ok st k := by
  intro fuel
  induction fuel with
  | zero => intro s c st k N hmax h hk; simp [run_no_limit_aux] at h
  | succ fuel ih =>
    intro s c st k N hmax h hk
    simp only [run_no_limit_aux] at h
    simp only [run_aux]
    by_cases hip : s.ip < s.code.length
    · rw [if_pos hip] at h
      rw [if_pos hip]
      rcases he : execute_instruction s with s1 | ⟨e, s1⟩ | _ <;> simp only [he] at h <;>
        simp only [he]
      · have hmax1 : s1.max_execution_counter = some N := by
          rw [(execute_instruction_ok s).1 s1 he]; exact hmax
        simp only [hmax1]
        have hc1 : c + 1 ≤ k := run_no_limit_count_le fuel s1 (c + 1) st k h
        rw [if_neg (by omega)]
        exact ih s1 (c + 1) st k N hmax1 h hk
      · cases h
      · cases h
    · rw [if_neg hip] at h
      rw [if_neg hip]
      exact h

/-! ## Label-map and code-generator lemmas -/

theorem jump_targets_append (a b : List Instruction) :
    jump_targets (a ++ b) = jump_targets a ++ jump_targets b := by
  simp [jump_targets]

theorem instr_labels_append (a b : List Instruction) :
    instr_labels (a ++ b) = instr_labels a ++ instr_labels b := by
  simp [instr_labels]

/-- A label resolves in the map built by `generate_bytecode_aux` exactly
when a `Label` instruction declares it or it already resolved in the
accumulator. -/
theorem generate_bytecode_aux_lookup :
    ∀ (instrs : List Instruction) (bytes : List Nat) (jm : List (String × Nat))
      (im : List (Nat × String)) (l : String),
      lookupStr (generate_bytecode_aux instrs bytes jm im).2.1 l ≠ none ↔
        (l ∈ instr_labels instrs ∨ lookupStr jm l ≠ none) := by
  intro instrs
  induction instrs with
  | nil => intro bytes jm im l; simp [generate_bytecode_aux, instr_labels]
  | cons i rest ih =>
    intro bytes jm im l
    cases i
    case Label label =>
      simp only [generate_bytecode_aux]
      rw [ih]
      have hlab : instr_labels (Instruction.Label label :: rest) =
          label :: instr_labels rest := by
        simp [instr_labels]
      rw [hlab]
      by_cases hl : label = l
      · subst hl; simp [lookupStr]
      · simp only [lookupStr, if_neg hl, List.mem_cons]
        constructor
        · intro h; rcases h with h | h
          · exact Or.inl (Or.inr h)
          · exact Or.inr h
        · intro h; rcases h with (h | h) | h
          · exact absurd h.symm hl
          · exact Or.inl h
          · exact Or.inr h
    all_goals
      simp only [generate_bytecode_aux]
      rw [ih]
      constructor
      · intro h; rcases h with h | h
        · refine Or.inl ?_; simp [instr_labels] at h ⊢; exact h
        · exact Or.inr h
      · intro h; rcases h with h | h
        · refine Or.inl ?_; simp [instr_labels] at h ⊢; exact h
        · exact Or.inr h

/-- Every label declared in a stream is a key of the
`label_jump_map` built by `generate_bytecode` — and only those. -/
theorem generate_bytecode_lookup (instrs : List Instruction) (l : String) :
    lookupStr (generate_bytecode instrs).2.1 l ≠ none ↔ l ∈ instr_labels instrs := by
  rw [generate_bytecode, generate_bytecode_aux_lookup]
  simp [lookupStr]

/-- The `process_print` emits only `Push`/`Printf`/`Stdout`/`Stderr`: no
control-transfer instruction and no label. -/
theorem process_print_no_targets :
    ∀ (args : Option (List String)) (message : String) (pt : PrintType),
      jump_targets (process_print message args pt) = [] ∧
      instr_labels (process_print message args pt) = [] := by
  intro args
  rcases args with _ | args
  · intro message pt; cases pt <;> simp [process_print, jump_targets, instr_labels]
  · induction args with
    | nil => intro message pt; simp [process_print, jump_targets, instr_labels]
    | cons a rest ih =>
      intro message pt
      have hsplit : process_print message (some (a :: rest)) pt =
          [Instruction.Push (.String message), Instruction.Push (.String a),
           Instruction.Printf,
           match pt with
           | .Stdout => Instruction.Stdout
           | .Stderr => Instruction.Stderr] ++ process_print message (some rest) pt := by
        simp [process_print]
      rw [hsplit, jump_targets_append, instr_labels_append, (ih message pt).1,
        (ih message pt).2]
      cases pt <;> simp [jump_targets, instr_labels]

/-- One method statement never contributes a control transfer or a
label. -/
theorem process_method_statement_no_targets (st : Statement) (instrs : List Instruction)
    (h : process_method_statement st = .ok instrs) :
    jump_targets instrs = [] ∧ instr_labels instrs = [] := by
  rcases st with ⟨message, args⟩ | ⟨message, args⟩ | ms | ⟨service, method⟩
  · simp only [process_method_statement, Except.ok.injEq] at h
    rw [← h]
    exact process_print_no_targets args message .Stdout
  · simp only [process_method_statement, Except.ok.injEq] at h
    rw [← h]
    exact process_print_no_targets args message .Stderr
  · simp only [process_method_statement, Except.ok.injEq] at h
    rw [← h]
    simp [jump_targets, instr_labels]
  · rcases service with _ | service
    · simp [process_method_statement] at h
    · simp only [process_method_statement, Except.ok.injEq] at h
      rw [← h]
      simp [jump_targets, instr_labels]

/-- A method body (the statement loop) contributes no control transfers
and no labels. -/
theorem process_statements_no_targets :
    ∀ (sts : List Statement) (instrs : List Instruction),
      process_statements sts = .ok instrs →
      jump_targets instrs = [] ∧ instr_labels instrs = [] := by
  intro sts
  induction sts with
  | nil =>
    intro instrs h
    simp only [process_statements, Except.ok.injEq] at h
    rw [← h]; simp [jump_targets, instr_labels]
  | cons st rest ih =>
    intro instrs h
    simp only [process_statements] at h
    rcases h1 : process_method_statement st with e | is1 <;> rw [h1] at h
    · simp [Except.instMonad, Except.bind] at h
    · rcases h2 : process_statements rest with e | is2 <;> rw [h2] at h
      · simp [Except.instMonad, Except.bind] at h
      · simp only [Except.instMonad, Except.bind, Except.ok.injEq] at h
        rw [← h, jump_targets_append, instr_labels_append,
          (process_method_statement_no_targets st is1 h1).1,
          (process_method_statement_no_targets st is1 h1).2,
          (ih is2 h2).1, (ih is2 h2).2]
        simp

/-- A compiled method has no control transfers and declares exactly its
entry and end labels. -/
theorem process_method_targets (m : Method) (instrs : List Instruction)
    (h : process_method m = .ok instrs) :
    jump_targets instrs = [] ∧
    instr_labels instrs = ["start_" ++ m.name, "end_" ++ m.name] := by
  simp only [process_method] at h
  rcases hb : process_statements m.statements with e | body <;> rw [hb] at h
  · simp [Except.instMonad, Except.bind] at h
  · simp only [Except.instMonad, Except.bind, Except.ok.injEq] at h
    rw [← h, jump_targets_append, instr_labels_append, jump_targets_append,
      instr_labels_append, (process_statements_no_targets m.statements body hb).1,
      (process_statements_no_targets m.statements body hb).2]
    simp [jump_targets, instr_labels]

/-- The concatenation of the compiled methods has no control transfers
and declares each method's entry label. -/
theorem process_methods_targets :
    ∀ (ms : List Method) (instrs : List Instruction),
      process_methods ms = .ok instrs →
      jump_targets instrs = [] ∧
      ∀ m ∈ ms, ("start_" ++ m.name) ∈ instr_labels instrs := by
  intro ms
  induction ms with
  | nil =>
    intro instrs h
    simp only [process_methods, Except.ok.injEq] at h
    rw [← h]; simp [jump_targets]
  | cons m rest ih =>
    intro instrs h
    simp only [process_methods] at h
    rcases h1 : process_method m with e | is1 <;> rw [h1] at h
    · simp [Except.instMonad, Except.bind] at h
    · rcases h2 : process_methods rest with e | is2 <;> rw [h2] at h
      · simp [Except.instMonad, Except.bind] at h
      · simp only [Except.instMonad, Except.bind, Except.ok.injEq] at h
        rw [← h, jump_targets_append, instr_labels_append,
          (process_method_targets m is1 h1).1, (process_method_targets m is1 h1).2,
          (ih is2 h2).1]
        refine ⟨rfl, ?_⟩
        intro m1 hm1
        rcases List.mem_cons.mp hm1 with hm1a | hm1a
        · subst hm1a; simp
        · simp [List.mem_append]
          exact Or.inr (Or.inr ((ih is2 h2).2 m1 hm1a))

/-- Every control transfer emitted for a loop either targets the
`start_loop` label the loop itself declares, or is the `Call` to
`start_<m>` for the local method `m` the loop's first statement calls. -/
theorem process_loop_targets (ld : Loop) (tail : List Instruction)
    (h : process_loop ld = .ok tail) :
    ∀ t ∈ jump_targets tail,
      (t = "start_loop" ∧ "start_loop" ∈ instr_labels tail) ∨
      (∃ m, ld.statements.head? = some (.Call none m) ∧ t = "start_" ++ m) := by
  simp only [process_loop] at h
  rcases hh : ld.statements.head? with _ | st <;> rw [hh] at h
  · simp only [Except.ok.injEq] at h
    rw [← h]; simp [jump_targets]
  · rcases st with ⟨msg, args⟩ | ⟨msg, args⟩ | ms | ⟨service, method⟩ <;>
      try simp at h
    rcases service with _ | service
    · simp only [Except.ok.injEq] at h
      rw [← h]
      intro t ht
      simp [jump_targets] at ht
      rcases ht with ht | ht
      · exact Or.inr ⟨method, rfl, ht⟩
      · subst ht; exact Or.inl ⟨rfl, by simp [instr_labels]⟩
    · simp at h

/-- For a service the code generator accepts whose loop (if any) only
calls declared methods, every `Jump`/`JmpIfZero`/`Call` target of the
generated stream is declared by a `Label` of the same stream. -/
theorem process_service_targets (svc : Service) (instrs : List Instruction)
    (h : process_service svc = .ok instrs) (hok : loop_call_ok svc = true) :
    ∀ t ∈ jump_targets instrs, t ∈ instr_labels instrs := by
  simp only [process_service] at h
  rcases hb : process_methods svc.methods with e | bodies <;> rw [hb] at h
  · simp [Except.instMonad, Except.bind] at h
  have hbt := process_methods_targets svc.methods bodies hb
  simp only [Except.instMonad, Except.bind] at h
  rcases hl : svc.loops.head? with _ | ld <;> simp only [hl] at h
  · simp only [Except.ok.injEq] at h
    subst h
    intro t htar
    simp only [jump_targets_append, instr_labels_append, hbt.1, List.mem_append]
      at htar ⊢
    have hjt1 : jump_targets [Instruction.Label ("start_" ++ svc.name),
        Instruction.Jump ("start_" ++ svc.name ++ "_main")] =
        ["start_" ++ svc.name ++ "_main"] := by simp [jump_targets]
    have hjt2 : jump_targets [Instruction.Label ("start_" ++ svc.name ++ "_main")]
        = [] := by simp [jump_targets]
    have hjt3 : jump_targets [Instruction.CheckInterrupt,
        Instruction.Jump ("start_" ++ svc.name ++ "_main")] =
        ["start_" ++ svc.name ++ "_main"] := by simp [jump_targets]
    have hjt4 : jump_targets [Instruction.Label ("end_" ++ svc.name ++ "_main"),
        Instruction.Label ("end_" ++ svc.name)] = [] := by simp [jump_targets]
    have hlb2 : instr_labels [Instruction.Label ("start_" ++ svc.name ++ "_main")]
        = ["start_" ++ svc.name ++ "_main"] := by simp [instr_labels]
    rw [hjt1, hjt2, hjt3, hjt4] at htar
    rw [hlb2]
    simp only [List.mem_singleton, List.not_mem_nil, false_or, or_false] at htar
    rcases htar with htar | htar <;> (subst htar; tauto)
  · rcases htl : process_loop ld with e | tail <;> simp only [htl] at h
    · cases h
    · simp only [Except.ok.injEq] at h
      subst h
      intro t htar
      have hsplit := process_loop_targets ld tail htl
      simp only [jump_targets_append, instr_labels_append, hbt.1, List.mem_append]
        at htar ⊢
      have hjt1 : jump_targets [Instruction.Label ("start_" ++ svc.name),
          Instruction.Jump ("start_" ++ svc.name ++ "_main")] =
          ["start_" ++ svc.name ++ "_main"] := by simp [jump_targets]
      have hjt2 : jump_targets [Instruction.Label ("start_" ++ svc.name ++ "_main")]
          = [] := by simp [jump_targets]
      have hjt3 : jump_targets [Instruction.Label ("end_" ++ svc.name ++ "_main"),
          Instruction.Label ("end_" ++ svc.name)] = [] := by simp [jump_targets]
      have hlb1 : instr_labels [Instruction.Label ("start_" ++ svc.name),
          Instruction.Jump ("start_" ++ svc.name ++ "_main")] =
          ["start_" ++ svc.name] := by simp [instr_labels]
      have hlb2 : instr_labels [Instruction.Label ("start_" ++ svc.name ++ "_main")]
          = ["start_" ++ svc.name ++ "_main"] := by simp [instr_labels]
      have hlb3 : instr_labels [Instruction.Label ("end_" ++ svc.name ++ "_main"),
          Instruction.Label ("end_" ++ svc.name)] =
          ["end_" ++ svc.name ++ "_main", "end_" ++ svc.name] := by simp [instr_labels]
      rw [hjt1, hjt2, hjt3] at htar
      rw [hlb1, hlb2, hlb3]
      simp only [List.mem_singleton, List.not_mem_nil, false_or, or_false] at htar
      rcases htar with htar | htar
      · subst htar; tauto
      · rcases hsplit t htar with ⟨ht1, ht2⟩ | ⟨m, hm, ht1⟩
        · subst ht1; tauto
        · subst ht1
          simp only [loop_call_ok, hl, hm] at hok
          have hmem : m ∈ svc.methods.map Method.name := by simpa using hok
          rcases List.mem_map.mp hmem with ⟨mm, hmm, hname⟩
          have hsm := hbt.2 mm hmm
          rw [hname] at hsm
          tauto

/-! ## Instruction-level semantics theorems used by the claims -/

theorem stdout_stderr_int_semantics (s : VM) (n : Nat) (rest : List StackValue)
    (frames : List (List StackValue))
    (hstack : s.stack = (StackValue.Int n :: rest) :: frames) :
    (byteAt s.code s.ip = STDOUT_CODE →
      execute_instruction s = .next { s with
        stack := rest :: frames,
        print_out := s.print_out ++ [.Stdout (toString n)],
        ip := s.ip + 1 }) ∧
    (byteAt s.code s.ip = STDERR_CODE →
      execute_instruction s = .fault .InvalidStackValue
        { s with stack := rest :: frames }) := by
  constructor <;> intro hop <;>
    simp [execute_instruction, hop, PUSH_STRING_CODE, PUSH_INT_CODE, POP_CODE,
      DEC_CODE, JMP_IF_ZERO_CODE, LABEL_CODE, STDOUT_CODE, STDERR_CODE,
      exec_stdout, exec_stderr, popCurrent, hstack]

theorem check_interrupt_quiet_keeps_ip (s : VM)
    (hop : byteAt s.code s.ip = CHECK_INTERRUPT_CODE)
    (hquiet : s.remote_call_rx = none ∨ s.remote_call_rx = some [] ∨
      s.remote_call_counter + 1 ≤ s.remote_call_limit) :
    ∃ s1, execute_instruction s = .next s1 ∧ s1.ip = s.ip := by
  have hred : execute_instruction s = handle_remote_call s := by
    simp [execute_instruction, hop, PUSH_STRING_CODE, PUSH_INT_CODE, POP_CODE,
      DEC_CODE, JMP_IF_ZERO_CODE, LABEL_CODE, STDOUT_CODE, STDERR_CODE, SLEEP_CODE,
      STORE_VAR_CODE, LOAD_VAR_CODE, DUP_CODE, JUMP_CODE, PRINTF_CODE,
      REMOTE_CALL_CODE, START_CONTEXT_CODE, END_CONTEXT_CODE, CHECK_INTERRUPT_CODE,
      exec_check_interrupt]
  rw [hred]
  rcases hquiet with hq | hq | hq
  · exact ⟨s, by simp [handle_remote_call, hq], rfl⟩
  · by_cases hc : s.remote_call_counter + 1 > s.remote_call_limit
    · exact ⟨{ s with remote_call_counter := 0 },
        by simp [handle_remote_call, hq, hc], rfl⟩
    · exact ⟨{ s with remote_call_counter := s.remote_call_counter + 1 },
        by simp [handle_remote_call, hq, hc], rfl⟩
  · rcases hr : s.remote_call_rx with _ | q
    · exact ⟨s, by simp [handle_remote_call, hr], rfl⟩
    · have hc : ¬s.remote_call_counter + 1 > s.remote_call_limit := by omega
      exact ⟨{ s with remote_call_counter := s.remote_call_counter + 1 },
        by simp [handle_remote_call, hr, hc], rfl⟩

theorem printf_semantics (s : VM) (var : StackValue) (t : String)
    (rest : List StackValue) (frames : List (List StackValue))
    (hop : byteAt s.code s.ip = PRINTF_CODE)
    (hstack : s.stack = (var :: StackValue.String t :: rest) :: frames) :
    (∀ v, var = .String v → str_contains t "%s" = true →
      execute_instruction s = .next { s with
        stack := (StackValue.String (str_replace t "%s" v) :: rest) :: frames,
        ip := s.ip + 1 }) ∧
    (∀ i, var = .Int i → str_contains t "%s" = false → str_contains t "%d" = true →
      execute_instruction s = .next { s with
        stack := (StackValue.String (str_replace t "%d" (toString i)) :: rest) :: frames,
        ip := s.ip + 1 }) ∧
    (str_contains t "%s" = false → str_contains t "%d" = false →
      execute_instruction s = .fault (.InvalidTemplate t)
        { s with stack := rest :: frames }) := by
  refine ⟨?_, ?_, ?_⟩
  · intro v hv hs1
    subst hv
    simp [execute_instruction, hop, PUSH_STRING_CODE, PUSH_INT_CODE, POP_CODE,
      DEC_CODE, JMP_IF_ZERO_CODE, LABEL_CODE, STDOUT_CODE, STDERR_CODE, SLEEP_CODE,
      STORE_VAR_CODE, LOAD_VAR_CODE, DUP_CODE, JUMP_CODE, PRINTF_CODE,
      exec_printf, popCurrent, pushCurrent, hstack, hs1]
  · intro i hi hs1 hd1
    subst hi
    simp [execute_instruction, hop, PUSH_STRING_CODE, PUSH_INT_CODE, POP_CODE,
      DEC_CODE, JMP_IF_ZERO_CODE, LABEL_CODE, STDOUT_CODE, STDERR_CODE, SLEEP_CODE,
      STORE_VAR_CODE, LOAD_VAR_CODE, DUP_CODE, JUMP_CODE, PRINTF_CODE,
      exec_printf, popCurrent, pushCurrent, hstack, hs1, hd1]
  · intro hs1 hd1
    rcases var with v | i <;>
      simp [execute_instruction, hop, PUSH_STRING_CODE, PUSH_INT_CODE, POP_CODE,
        DEC_CODE, JMP_IF_ZERO_CODE, LABEL_CODE, STDOUT_CODE, STDERR_CODE, SLEEP_CODE,
        STORE_VAR_CODE, LOAD_VAR_CODE, DUP_CODE, JUMP_CODE, PRINTF_CODE,
        exec_printf, popCurrent, pushCurrent, hstack, hs1, hd1]

theorem printf_mismatch_semantics (s : VM) (var : StackValue) (t : String)
    (rest : List StackValue) (frames : List (List StackValue))
    (hop : byteAt s.code s.ip = PRINTF_CODE)
    (hstack : s.stack = (var :: StackValue.String t :: rest) :: frames) :
    (∀ i, var = .Int i → str_contains t "%s" = true →
      execute_instruction s = .fault .InvalidStackValue
        { s with stack := rest :: frames }) ∧
    (∀ v, var = .String v → str_contains t "%s" = false → str_contains t "%d" = true →
      execute_instruction s = .fault .InvalidStackValue
        { s with stack := rest :: frames }) := by
  constructor
  · intro i hi hs1
    subst hi
    simp [execute_instruction, hop, PUSH_STRING_CODE, PUSH_INT_CODE, POP_CODE,
      DEC_CODE, JMP_IF_ZERO_CODE, LABEL_CODE, STDOUT_CODE, STDERR_CODE, SLEEP_CODE,
      STORE_VAR_CODE, LOAD_VAR_CODE, DUP_CODE, JUMP_CODE, PRINTF_CODE,
      exec_printf, popCurrent, hstack, hs1]
  · intro v hv hs1 hd1
    subst hv
    simp [execute_instruction, hop, PUSH_STRING_CODE, PUSH_INT_CODE, POP_CODE,
      DEC_CODE, JMP_IF_ZERO_CODE, LABEL_CODE, STDOUT_CODE, STDERR_CODE, SLEEP_CODE,
      STORE_VAR_CODE, LOAD_VAR_CODE, DUP_CODE, JUMP_CODE, PRINTF_CODE,
      exec_printf, popCurrent, hstack, hs1, hd1]

/-! # Claim theorems -/

set_option maxRecDepth 10000 in
/-- C1 (code bug in the implementation): after a `Call(L); …; Ret`
sequence the claim requires `ip` to sit just past the whole `Call`
instruction with the frame depth restored.  The code restores the frame
depth but pushes the *pre-advance* `ip` in `handle_local_call`, so after
`Ret` the `ip` is the byte offset **of the `Call` opcode itself** (37 in
`progC1`, whose `Call` instruction spans bytes 37–46, so the claimed
offset is 47) and the `Call` re-executes.  On the repository's own
`test_vm_with_local_call` program this yields 6 prints where the test
asserts exactly 5. -/
theorem c1_ret_returns_to_call_opcode :
    lookupStr (generate_bytecode progC1).2.1 "main" = some 37 ∧
    byteAt (generate_bytecode progC1).1 37 = CALL_CODE ∧
    (stepN 3 (VM.new progC1 "test")).map
      (fun s => (s.ip, s.stack.length, s.return_addresses.length)) =
      some (37, 1, 0) ∧
    (37 : Nat) ≠ 47 ∧
    process_service svcTestLocalCall = .ok testLocalCallInstrs ∧
    testLocalCallRun.errorOf = some .MaxExecutionCounterReached ∧
    testLocalCallRun.printMessages = List.replicate 6 (.Stdout "Main page") := by
  decide

set_option maxRecDepth 10000 in
/-- C2, counterexample: compiling the S2 source and running it with
`max_execution_counter = 30` does *not* produce exactly 5
`Stdout("Main page")` messages. -/
theorem c2_counterexample_not_five :
    process_service svcS2 = .ok c2Instrs ∧
    c2Run.errorOf = some .MaxExecutionCounterReached ∧
    c2Run.printMessages ≠ List.replicate 5 (.Stdout "Main page") := by
  decide

set_option maxRecDepth 10000 in
/-- C2 (amended): the S2 program under `max_execution_counter = 30`
returns `MaxExecutionCounterReached` after exactly 31 executed
instructions, having sent exactly **7** `Stdout("Main page")` messages
on the print channel. -/
theorem c2_seven_prints :
    process_service svcS2 = .ok c2Instrs ∧
    c2Run.errorOf = some .MaxExecutionCounterReached ∧
    c2Run.count = 31 ∧
    c2Run.printMessages = List.replicate 7 (.Stdout "Main page") := by
  decide

set_option maxRecDepth 10000 in
/-- C3 (code bug in the implementation): the `JmpIfZero` arm runs a
trailing `ip += 1` in both int cases.  On `Int(0)` execution resumes at
`label_to_offset[L] + 1` (55 in `progC3zero`, whose label `L` resolves
to 54), one byte *inside* the following instruction; on a non-zero int
it resumes at the `JmpIfZero` opcode offset plus one (18 in
`progC3nonzero`, inside the instruction's own length field, instead of
27, the first byte past the instruction).  A non-int top does fail with
`InvalidStackValue` as claimed. -/
theorem c3_jmp_if_zero_off_by_one :
    lookupStr (generate_bytecode progC3zero).2.1 "L" = some 54 ∧
    (stepN 2 (VM.new progC3zero "test")).map VM.ip = some 55 ∧
    (55 : Nat) ≠ 54 ∧
    byteAt (generate_bytecode progC3nonzero).1 17 = JMP_IF_ZERO_CODE ∧
    (stepN 2 (VM.new progC3nonzero "test")).map VM.ip = some 18 ∧
    (18 : Nat) ≠ 27 ∧
    ((VM.new progC3string "test").run 100).errorOf = some .InvalidStackValue := by
  decide

set_option maxRecDepth 10000 in
/-- C4, counterexample: a template with *two* `%s` occurrences does not
fail with `InvalidTemplate`; `run()` succeeds and both occurrences are
substituted (`Stdout("abab")`). -/
theorem c4_counterexample_two_placeholders :
    c4Run.errorOf = none ∧ c4Run.printMessages = [.Stdout "abab"] := by
  decide

/-- C4 (amended): `Printf` pops the value then the string template; if
the template contains `%s` and the value is a string, **every**
occurrence of `%s` is substituted (`str::replace`) and the result
pushed; otherwise if it contains `%d` and the value is an int, every
`%d` occurrence is substituted; only a template containing neither
placeholder fails with `InvalidTemplate` carrying the template, with
nothing pushed and nothing printed. -/
theorem c4_printf_replaces_all_occurrences (s : VM) (var : StackValue) (t : String)
    (rest : List StackValue) (frames : List (List StackValue))
    (hop : byteAt s.code s.ip = PRINTF_CODE)
    (hstack : s.stack = (var :: StackValue.String t :: rest) :: frames) :
    (∀ v, var = .String v → str_contains t "%s" = true →
      execute_instruction s = .next { s with
        stack := (StackValue.String (str_replace t "%s" v) :: rest) :: frames,
        ip := s.ip + 1 }) ∧
    (∀ i, var = .Int i → str_contains t "%s" = false → str_contains t "%d" = true →
      execute_instruction s = .next { s with
        stack := (StackValue.String (str_replace t "%d" (toString i)) :: rest) :: frames,
        ip := s.ip + 1 }) ∧
    (str_contains t "%s" = false → str_contains t "%d" = false →
      execute_instruction s = .fault (.InvalidTemplate t)
        { s with stack := rest :: frames }) :=
  printf_semantics s var t rest frames hop hstack

/-- Witness for the C4 theorem at the concrete `Printf` state `c4VM`. -/
theorem c4_printf_replaces_all_occurrences_witness :
    execute_instruction c4VM = .next { c4VM with
      stack := [[StackValue.String (str_replace "%s%s" "%s" "ab")]],
      ip := c4VM.ip + 1 } :=
  (c4_printf_replaces_all_occurrences c4VM (.String "ab") "%s%s" [] []
    (by decide) (by decide)).1 "ab" rfl (by decide)

set_option maxRecDepth 10000 in
/-- C5, counterexample: `Printf` with template `"Hello, %s!"` and an
`Int` value fails with `InvalidStackValue`, not with
`InvalidTemplate("Hello, %s!")`; nothing is printed. -/
theorem c5_counterexample_mismatch_kind :
    c5Run.errorOf = some .InvalidStackValue ∧
    c5Run.errorOf ≠ some (.InvalidTemplate "Hello, %s!") ∧
    c5Run.printMessages = [] := by
  decide

/-- C5 (amended): a placeholder/value type mismatch (`%s` with an `Int`
value, or `%d`-only with a `String` value) makes `run()` fail with
`InvalidStackValue` — the `InvalidTemplate` kind (which would carry the
template) is reserved for templates with no placeholder at all. -/
theorem c5_printf_mismatch_is_invalid_stack_value (s : VM) (var : StackValue)
    (t : String) (rest : List StackValue) (frames : List (List StackValue))
    (hop : byteAt s.code s.ip = PRINTF_CODE)
    (hstack : s.stack = (var :: StackValue.String t :: rest) :: frames) :
    (∀ i, var = .Int i → str_contains t "%s" = true →
      execute_instruction s = .fault .InvalidStackValue
        { s with stack := rest :: frames }) ∧
    (∀ v, var = .String v → str_contains t "%s" = false → str_contains t "%d" = true →
      execute_instruction s = .fault .InvalidStackValue
        { s with stack := rest :: frames }) :=
  printf_mismatch_semantics s var t rest frames hop hstack

/-- Witness for the C5 theorem at the concrete `Printf` state `c5VM`. -/
theorem c5_printf_mismatch_witness :
    execute_instruction c5VM = .fault .InvalidStackValue { c5VM with stack := [[]] } :=
  (c5_printf_mismatch_is_invalid_stack_value c5VM (.Int 1) "Hello, %s!" [] []
    (by decide) (by decide)).1 1 rfl (by decide)

set_option maxRecDepth 10000 in
/-- C6, counterexample: codegen accepts `svcC6`, whose loop calls the
undeclared method `missing`; the generated stream contains the `Call`
target `start_missing`, which is **not** a key of the resulting
`label_to_offset` map. -/
theorem c6_counterexample_missing_method :
    process_service svcC6 = .ok c6Instrs ∧
    "start_missing" ∈ jump_targets c6Instrs ∧
    lookupStr (generate_bytecode c6Instrs).2.1 "start_missing" = none := by
  decide

/-- C6 (amended): for every service the code generator accepts *whose
loop (if any) only calls methods the service declares*, every label
named by a `Jump`, `JmpIfZero` or `Call` of the generated stream is a
key of the `label_to_offset` map built by encoding that stream.  (The
"in particular" case of the claim — a loop calling an undeclared method
— is exactly the case where the property fails.) -/
theorem c6_generated_targets_resolve (svc : Service) (instrs : List Instruction)
    (h : process_service svc = .ok instrs) (hok : loop_call_ok svc = true) :
    ∀ t ∈ jump_targets instrs, lookupStr (generate_bytecode instrs).2.1 t ≠ none := by
  intro t ht
  rw [generate_bytecode_lookup]
  exact process_service_targets svc instrs h hok t ht

/-- Witness for the C6 theorem: the S2 service's `Call` target
resolves. -/
theorem c6_generated_targets_resolve_witness :
    lookupStr (generate_bytecode c2Instrs).2.1 "start_main_page" ≠ none :=
  c6_generated_targets_resolve svcS2 c2Instrs (by decide) (by decide)
    "start_main_page" (by decide)

set_option maxRecDepth 10000 in
/-- C7: the code generator maps the S1 service to exactly the claimed
twelve-instruction stream. -/
theorem c7_s1_exact_stream :
    process_service svcS1 = .ok
      [.Label "start_frontend", .Jump "start_frontend_main",
       .Label "start_main_page", .Push (.String "Main page"), .Stdout, .Ret,
       .Label "end_main_page", .Label "start_frontend_main", .CheckInterrupt,
       .Jump "start_frontend_main", .Label "end_frontend_main",
       .Label "end_frontend"] := by
  decide

/-- C8: with `max_execution_counter = N`, (a) whenever `run()` returns
`MaxExecutionCounterReached` the number of completed instruction
executions strictly exceeds `N` (the error is only raised after the
`(N+1)`-th instruction), and (b) when the bytecode is exhausted within
`N` instructions (as expressed by the watchdog-free loop), `run()`
returns that same `ok` outcome, never `MaxExecutionCounterReached`. -/
theorem c8_watchdog_bound (s : VM) (N fuel : Nat)
    (h : s.max_execution_counter = some N) :
    (∀ st k, s.run fuel = .err .MaxExecutionCounterReached st k → N < k) ∧
    (∀ st k, run_no_limit_aux fuel s 0 = .ok st k → k ≤ N →
      s.run fuel = .ok st k) :=
  ⟨fun st k hr => run_aux_max_err fuel s 0 st k N h hr,
   fun st k hr hk => run_no_limit_to_run fuel s 0 st k N h hr hk⟩

/-- Witness for the C8 theorem on the two-instruction `progC8`: with
bound 0 the watchdog fires after 1 > 0 executions; with bound 2 the
program's normal completion in 2 ≤ 2 instructions is preserved. -/
theorem c8_watchdog_bound_witness :
    (0 : Nat) < 1 ∧ c8VMb.run 10 = .ok (run_no_limit_aux 10 c8VMb 0).finalVM 2 :=
  ⟨(c8_watchdog_bound c8VMa 0 10 rfl).1 (c8VMa.run 10).finalVM 1 (by decide),
   (c8_watchdog_bound c8VMb 2 10 rfl).2 (run_no_limit_aux 10 c8VMb 0).finalVM 2
     (by decide) (by decide)⟩

/-- C9: `Stdout` with `Int(n)` on top pops it and sends the decimal
string on the print channel, continuing just past the opcode; `Stderr`
with an `Int` on top pops it and fails with `InvalidStackValue` with
nothing sent. -/
theorem c9_stdout_stringifies_stderr_rejects_int (s : VM) (n : Nat)
    (rest : List StackValue) (frames : List (List StackValue))
    (hstack : s.stack = (StackValue.Int n :: rest) :: frames) :
    (byteAt s.code s.ip = STDOUT_CODE →
      execute_instruction s = .next { s with
        stack := rest :: frames,
        print_out := s.print_out ++ [.Stdout (toString n)],
        ip := s.ip + 1 }) ∧
    (byteAt s.code s.ip = STDERR_CODE →
      execute_instruction s = .fault .InvalidStackValue
        { s with stack := rest :: frames }) :=
  stdout_stderr_int_semantics s n rest frames hstack

/-- Witness for the C9 theorem at concrete `Stdout`/`Stderr` states. -/
theorem c9_stdout_stderr_witness :
    execute_instruction c9VMstdout = .next { c9VMstdout with
      stack := [[]],
      print_out := c9VMstdout.print_out ++ [.Stdout (toString 12345)],
      ip := c9VMstdout.ip + 1 } ∧
    execute_instruction c9VMstderr = .fault .InvalidStackValue
      { c9VMstderr with stack := [[]] } :=
  ⟨(c9_stdout_stringifies_stderr_rejects_int c9VMstdout 12345 [] [] (by decide)).1
     (by decide),
   (c9_stdout_stringifies_stderr_rejects_int c9VMstderr 12345 [] [] (by decide)).2
     (by decide)⟩

/-- C10: executing `CheckInterrupt` when no inbound message is serviced
(no inbound channel, the poll-cadence counter not beyond
`remote_call_limit`, or an empty queue) succeeds and leaves `ip`
unchanged — still pointing at the `CheckInterrupt` opcode. -/
theorem c10_check_interrupt_never_advances_ip (s : VM)
    (hop : byteAt s.code s.ip = CHECK_INTERRUPT_CODE)
    (hquiet : s.remote_call_rx = none ∨ s.remote_call_rx = some [] ∨
      s.remote_call_counter + 1 ≤ s.remote_call_limit) :
    (execute_instruction s).ipOf = some s.ip := by
  rcases check_interrupt_quiet_keeps_ip s hop hquiet with ⟨s1, hstep, hip⟩
  rw [hstep, StepResult.ipOf, hip]

/-- Witness for the C10 theorem: a `CheckInterrupt`-only program with no
inbound channel. -/
theorem c10_check_interrupt_witness :
    (execute_instruction c10VM).ipOf = some c10VM.ip :=
  c10_check_interrupt_never_advances_ip c10VM (by decide) (Or.inl rfl)
